import Mathlib

/-!
A shallow embedding of src/SQLAir.cpp: a lightweight CSV-backed database with
SQL-like select/update queries, a most-recently-used table cache, and a
bounded-concurrency web server.  Pure functions of the source are translated
as Lean functions; C++ exceptions become `Except`/`Option` results; the
concurrent parts (the wait/notify protocol of select/update and the server's
admission control) are modelled as explicit transition systems whose steps
correspond to the source's critical sections.
-/

namespace SQLAir

/-- A row of a CSV: an ordered sequence of string fields (type CSVRow of the
source). -/
abbrev CSVRow := List String

/-- A CSV table: ordered column names plus an ordered sequence of rows
(class CSV of the source; its mutexes and condition variable are modelled in
the transition systems below, not as data). -/
structure CSV where
  columnNames : List String
  rows : List CSVRow
deriving DecidableEq

deriving instance DecidableEq for Except

/-- The C++ exceptions and undefined behaviours that the embedded operations
can surface.  `exp` is a thrown `Exp(msg)`; `atRange` is the out_of_range of a
checked `.at` access (vector or unordered_map); `lookupErr` is the
spec-modelled LookupError of `CSV::getColumnIndex` on an unknown column name;
`loadErr` is the spec-modelled LoadError of `CSV::load` on an unreadable
source; `notFound` is the spec's NotFound kind (never produced by the code,
kept so that claims about it are statable); `valuesIndexUB` marks an
out-of-bounds unchecked `operator[]` access, which is undefined behaviour in
the source. -/
inductive AirExn
  | exp (msg : String)
  | atRange
  | lookupErr
  | loadErr (src : String)
  | notFound
  | valuesIndexUB
deriving DecidableEq

/-- Modelled from the spec: `CSV::getColumnIndex` is not under src/ (only its
callers are); per the spec, column-name lookup is exact case-sensitive string
match against the table's column list.  Helper returning the index of the
first occurrence of a name. -/
def getColumnIndexAux : List String → String → Option Nat
  | [], _ => none
  | c :: cs, n => if c = n then some 0 else (getColumnIndexAux cs n).map (· + 1)

/-- Modelled from the spec: `CSV::getColumnIndex`; an unknown column name is a
LookupError, rendered here as `none` (callers translate it to
`AirExn.lookupErr`). -/
def CSV.getColumnIndex (csv : CSV) (name : String) : Option Nat :=
  getColumnIndexAux csv.columnNames name

/-- Modelled from the spec: `CSV::getColumnNames` returns the ordered column
name list. -/
def CSV.getColumnNames (csv : CSV) : List String := csv.columnNames

/-- One observable output item written to the query's output stream. -/
inductive OutEvent
  | header (cols : List String)
  | vals (vs : List String)
  | rowsSelected (n : Nat)
  | rowsUpdated (n : Nat)
  | saved (id : String)
deriving DecidableEq

/-- The value-collecting loop of `display` (src/SQLAir.cpp lines 50-53):
`row.at(csv.getColumnIndex(colName))` for each column name in order; both the
column lookup and the row access are checked, so any failure aborts with
`none`. -/
def colVals (csv : CSV) (row : CSVRow) : List String → Option (List String)
  | [] => some []
  | c :: cs =>
    match (csv.getColumnIndex c).bind (fun i => row[i]?) with
    | none => none
    | some v =>
      match colVals csv row cs with
      | none => none
      | some vs => some (v :: vs)

/-- The `display` helper (src/SQLAir.cpp lines 44-55): prints the column-name
header when `numRows == 1`, then the row's values in the specified columns. -/
def display (row : CSVRow) (colNames : List String) (csv : CSV)
    (numRows : Nat) : Option (List OutEvent) :=
  match colVals csv row colNames with
  | none => none
  | some vs =>
    some ((if numRows = 1 then [OutEvent.header colNames] else []) ++ [OutEvent.vals vs])

/-- The where-clause test of one row (src/SQLAir.cpp lines 71-72 and 99):
`whereColIdx == -1` short-circuits to an unconditional match; otherwise
`row.at(whereColIdx)` is read (a checked access, `none` when out of range,
which includes every negative index other than -1 since the int converts to a
huge size_t) and compared via the `matches` helper.  `SQLAirBase::matches` is
not under src/, so it is a parameter. -/
def rowChosen (mtch : String → String → String → Bool) (whereColIdx : Int)
    (cond value : String) (row : CSVRow) : Option Bool :=
  if whereColIdx = -1 then some true
  else if 0 ≤ whereColIdx then (row[whereColIdx.toNat]?).map (fun s => mtch s cond value)
  else none

/-- The row-scanning loop of `selectQuery` (src/SQLAir.cpp lines 64-78):
walks the rows carrying the running match count `n`, and for each chosen row
emits the `display` output for count `n+1`.  Each row's test-and-copy happens
under that row's mutex in the source; the copied row is displayed outside the
critical section, so the sequential semantics is this fold.  Returns the final
count and the emitted events, or `none` if an access threw. -/
def selectRows (mtch : String → String → String → Bool) (csv : CSV)
    (cols : List String) (whereColIdx : Int) (cond value : String) :
    List CSVRow → Nat → Option (Nat × List OutEvent)
  | [], n => some (n, [])
  | r :: rs, n =>
    match rowChosen mtch whereColIdx cond value r with
    | none => none
    | some false => selectRows mtch csv cols whereColIdx cond value rs n
    | some true =>
      match display r cols csv (n + 1) with
      | none => none
      | some evs =>
        match selectRows mtch csv cols whereColIdx cond value rs (n + 1) with
        | none => none
        | some (n2, rest) => some (n2, evs ++ rest)

/-- Outcome of a query in the sequential semantics: `done` with its output
events, or `blocked` on the table's condition variable (the mustWait branch,
which in a single-threaded run never returns). -/
inductive QResult
  | done (events : List OutEvent)
  | blocked
deriving DecidableEq

/-- `SQLAir::selectQuery` (src/SQLAir.cpp lines 59-87) in its sequential
semantics: `*` in the first column name expands to all columns, the rows are
scanned by `selectRows`, and then either the count line is printed, or (when
`mustWait` and zero rows matched) the query blocks on the table's condition
variable. -/
def selectQuery (mtch : String → String → String → Bool) (csv : CSV)
    (mustWait : Bool) (colNames : List String) (whereColIdx : Int)
    (cond value : String) : Option QResult :=
  let cols := if colNames.head? = some "*" then csv.getColumnNames else colNames
  match selectRows mtch csv cols whereColIdx cond value csv.rows 0 with
  | none => none
  | some (n, evs) =>
    if mustWait && n == 0 then some QResult.blocked
    else some (QResult.done (evs ++ [OutEvent.rowsSelected n]))

/-- The per-matched-row mutation of `updateQuery` (src/SQLAir.cpp lines
101-103): `row[csv.getColumnIndex(colNames[i])] = values[i]` for every
`i < colNames.size()`.  `values[i]` is an unchecked `operator[]` (undefined
behaviour when out of range, marked `valuesIndexUB`; in C++17 the right
operand of the assignment is sequenced before the left, so this access comes
first); `getColumnIndex` raises LookupError on an unknown column; the write
into the row is in range whenever the row respects the table's column count,
since `getColumnIndex` returns an index below that count. -/
def setCols (csv : CSV) (values : List String) :
    List String → Nat → CSVRow → Except AirExn CSVRow
  | [], _, row => .ok row
  | c :: cs, i, row =>
    match values[i]? with
    | none => .error .valuesIndexUB
    | some v =>
      match csv.getColumnIndex c with
      | none => .error .lookupErr
      | some idx => setCols csv values cs (i + 1) (row.set idx v)

/-- The row loop of `updateQuery` (src/SQLAir.cpp lines 94-105): each row is
tested and, when it is chosen, mutated under one acquisition of its row mutex.
Returns the new row list and the number of updated rows. -/
def updateRows (mtch : String → String → String → Bool) (csv : CSV)
    (colNames values : List String) (whereColIdx : Int) (cond value : String) :
    List CSVRow → Except AirExn (List CSVRow × Nat)
  | [] => .ok ([], 0)
  | r :: rs =>
    match rowChosen mtch whereColIdx cond value r with
    | none => .error .atRange
    | some false =>
      match updateRows mtch csv colNames values whereColIdx cond value rs with
      | .error e => .error e
      | .ok (rs2, k) => .ok (r :: rs2, k)
    | some true =>
      match setCols csv values colNames 0 r with
      | .error e => .error e
      | .ok r2 =>
        match updateRows mtch csv colNames values whereColIdx cond value rs with
        | .error e => .error e
        | .ok (rs2, k) => .ok (r2 :: rs2, k + 1)

/-- Outcome of `updateQuery` in the sequential semantics: the updated table,
its printed events and whether the table's condition variable was
broadcast-notified, or `blocked` on the condition variable. -/
inductive UpdOutcome
  | done (csv : CSV) (events : List OutEvent) (notified : Bool)
  | blocked
deriving DecidableEq

/-- `SQLAir::updateQuery` (src/SQLAir.cpp lines 89-119) in its sequential
semantics: scan-and-mutate the rows, then either block (mustWait with zero
updates) or print the count and, when at least one row was updated,
broadcast-notify the table's condition variable (`notified`). -/
def updateQuery (mtch : String → String → String → Bool) (csv : CSV)
    (mustWait : Bool) (colNames values : List String) (whereColIdx : Int)
    (cond value : String) : Except AirExn UpdOutcome :=
  match updateRows mtch csv colNames values whereColIdx cond value csv.rows with
  | .error e => .error e
  | .ok (rows2, n) =>
    if mustWait && n == 0 then .ok UpdOutcome.blocked
    else .ok (UpdOutcome.done { csv with rows := rows2 }
      [OutEvent.rowsUpdated n] (decide (0 < n)))

/-- `SQLAir::insertQuery` (src/SQLAir.cpp lines 121-124): unconditionally
throws `Exp("insert is not yet implemented.")`. -/
def insertQuery (csv : CSV) (mustWait : Bool) (colNames values : List String) :
    Except AirExn UpdOutcome :=
  .error (.exp "insert is not yet implemented.")

/-- `SQLAir::deleteQuery` (src/SQLAir.cpp lines 126-130): unconditionally
throws `Exp("delete is not yet implemented.")`. -/
def deleteQuery (csv : CSV) (mustWait : Bool) (whereColIdx : Int)
    (cond value : String) : Except AirExn UpdOutcome :=
  .error (.exp "delete is not yet implemented.")

/-- The mutable state of the SQLAir object relevant to the table cache: the
`inMemoryCSV` identifier-to-table mapping (an association list standing for
the unordered_map) and the `recentCSV` most-recently-used identifier.  Both
are guarded by `recentCSVMutex` in the source. -/
structure AirState where
  inMemoryCSV : List (String × CSV)
  recentCSV : String
deriving DecidableEq

/-- The source's `str.find(what) == 0` idiom (src/SQLAir.cpp lines 142, 248,
276): does `what` occur at the start of `s`?  Defined on the character lists
so that it evaluates by kernel reduction. -/
def findAtStart (what s : String) : Bool :=
  what.data.isPrefixOf s.data

/-- `unordered_map::operator[]` followed by `move` (src/SQLAir.cpp line 269):
insert the table under the key, replacing any table already there. -/
def mapInsert (l : List (String × CSV)) (k : String) (v : CSV) :
    List (String × CSV) :=
  (k, v) :: l.filter (fun p => p.1 != k)

/-- `SQLAir::loadAndGet` (src/SQLAir.cpp lines 231-272).  Under the cache
mutex: an empty identifier is replaced by the most-recently-used one, the
most-recently-used identifier is set to the resolved identifier, and a cached
table is returned directly.  Otherwise the backing source is loaded outside
the lock and, on success, inserted into the mapping.  `load` stands for lines
248-261 (the URL and local-file branches): `CSV::load`, the download transport
and the filesystem are outside src/, so the loader is a parameter; a load
failure propagates as the returned error, and the whole call is a state
transformer because the assignment to `recentCSV` precedes the load. -/
def loadAndGet (load : String → Except AirExn CSV) (s : AirState)
    (fileOrURL : String) : AirState × Except AirExn CSV :=
  let id := if fileOrURL = "" then s.recentCSV else fileOrURL
  let s1 : AirState := { s with recentCSV := id }
  match s1.inMemoryCSV.lookup id with
  | some csv => (s1, .ok csv)
  | none =>
    match load id with
    | .error e => (s1, .error e)
    | .ok csv => ({ s1 with inMemoryCSV := mapInsert s1.inMemoryCSV id csv }, .ok csv)

/-- Modelled from the spec: the local-file loader used to instantiate
`loadAndGet` in concrete runs.  `CSV::load` is not under src/; per the spec an
unreadable source fails with a LoadError, and this loader treats every source
as unreadable (it stands for a run in which the backing file does not
exist). -/
def failLoader : String → Except AirExn CSV :=
  fun src => .error (.loadErr src)

/-- `SQLAir::saveQuery` (src/SQLAir.cpp lines 275-283): throw when the
most-recently-used identifier is empty or starts with "http://"; otherwise
write the most-recently-used table to the file named by the identifier (the
effect is returned as the name-table pair; `CSV::save` and the filesystem are
outside src/) and print the success line.  `inMemoryCSV.at(recentCSV)` is a
checked map access: it throws out_of_range when the identifier is not in the
mapping. -/
def saveQuery (s : AirState) : Except AirExn ((String × CSV) × OutEvent) :=
  if s.recentCSV.isEmpty || findAtStart "http://" s.recentCSV then
    .error (.exp "Saving CSV to an URL using POST is not implemented")
  else
    match s.inMemoryCSV.lookup s.recentCSV with
    | none => .error .atRange
    | some csv => .ok ((s.recentCSV, csv), OutEvent.saved s.recentCSV)

/-- The fixed HTTP response header of src/SQLAir.cpp lines 23-28. -/
def HTTPRespHeader : String :=
  "HTTP/1.1 200 OK\r\nServer: localhost\r\nConnection: Close\r\nContent-Type: text/plain\r\nContent-Length: "

/-- `SQLAir::clientThread` (src/SQLAir.cpp lines 133-158) for one request.
`process` stands for `SQLAirBase::process` (not under src/): it either
completes with the query's output text or raises an error message;
`urlDecode` stands for `Helper::url_decode`.  For a query request the body is
the query output, or the single line "Error: <message>" when processing
threw (the worker-level catch of lines 148-150); the response is the fixed
header, the body's byte length, a blank line, and the body.  For any request
the worker then decrements the active-thread count and notifies one thread
blocked on admission (lines 156-157); the returned integer is the new count,
and `none` in the first component stands for the static-file branch whose
response is outside the core. -/
def clientThread (process : String → Except String String)
    (urlDecode : String → String) (request : String) (numThreads : Int) :
    Option String × Int :=
  if findAtStart "/sql-air?query=" request then
    let body :=
      match process (urlDecode (request.drop 15)) with
      | .ok out => out
      | .error msg => "Error: " ++ msg ++ "\n"
    (some (HTTPRespHeader ++ toString body.utf8ByteSize ++ "\r\n\r\n" ++ body),
      numThreads - 1)
  else
    (none, numThreads - 1)

/-- The admission-control state of `SQLAir::runServer` and
`SQLAir::clientThread`: `numThreads` is the source's counter (an int),
`active` counts the workers that have been spawned and have not yet finished
(the "Handling" workers), and `pendingInc` records that the accept loop has
spawned a worker (line 175) but has not yet executed `numThreads++`
(line 176) — both happen inside one holding of `thrMutex`, but a worker's
decrement does not take that mutex, so it may interleave between them. -/
structure SrvState where
  numThreads : Int
  active : Nat
  pendingInc : Bool
deriving DecidableEq

/-- The server starts with no workers and a zero counter. -/
def srvInit : SrvState := { numThreads := 0, active := 0, pendingInc := false }

/-- Transitions of the admission-control protocol (src/SQLAir.cpp lines
161-179 and 156-157).  `spawnWorker`: under `thrMutex` the accept loop has passed
the `numThreads < maxThr` gate and spawned a detached worker (lines 167,
175).  `countSpawn`: the accept loop's `numThreads++` (line 176), still under
the same mutex holding.  `finish`: a worker completes, decrements
`numThreads` and wakes one admission-blocked thread via `notify_one`, not a
broadcast (lines 156-157). -/
inductive SrvStep (maxThr : Int) : SrvState → SrvState → Prop
  | spawnWorker (s : SrvState) : s.pendingInc = false → s.numThreads < maxThr →
      SrvStep maxThr s { numThreads := s.numThreads, active := s.active + 1, pendingInc := true }
  | countSpawn (s : SrvState) : s.pendingInc = true →
      SrvStep maxThr s { numThreads := s.numThreads + 1, active := s.active, pendingInc := false }
  | finish (s : SrvState) : 0 < s.active →
      SrvStep maxThr s { numThreads := s.numThreads - 1, active := s.active - 1, pendingInc := s.pendingInc }

/-- The arguments of one blocking select and one update running concurrently
against the same table, for the interleaving model of the wait/notify
protocol. -/
structure RaceSetup where
  mtch : String → String → String → Bool
  selCols : List String
  selW : Int
  selCond : String
  selVal : String
  updCols : List String
  updVals : List String
  updW : Int
  updCond : String
  updVal : String

/-- Control state of the selecting thread inside
`selectQuery(mustWait = true)`: about to run the row scan of lines 64-78;
past a zero-row scan but not yet inside `csvCondVar.wait` (between line 78
and line 81); parked in `csvCondVar.wait` (line 81); or returned. -/
inductive SelPC
  | scan
  | preWait
  | waiting
  | done
deriving DecidableEq

/-- Control state of the updating thread inside `updateQuery`: about to run
the row loop of lines 94-105; between the loop and the notification branch of
lines 113-118 with its update count; or returned. -/
inductive UpdPC
  | run
  | notify (n : Nat)
  | finished
deriving DecidableEq

/-- A configuration of the two-thread system: the shared table, the two
program counters, and whether the selector is in the waitset of the table's
condition variable. -/
structure Cfg where
  csv : CSV
  sel : SelPC
  upd : UpdPC
  waiters : Bool
deriving DecidableEq

/-- Interleaving semantics of one blocking select (src/SQLAir.cpp lines
59-87) racing one non-blocking update (lines 89-119) on the same table, with
a single-row table so that each thread's whole row pass is one critical
section under the row's mutex.  `selScanHit`/`selScanMiss`: the select's row
scan completes with a positive/zero match count; the scan holds only row
mutexes, not `csvMutex`, so the updater may run completely between a zero-row
scan and the wait.  `selEnterWait`: the select acquires `csvMutex` and parks
in `csvCondVar.wait` (lines 80-81).  `updCommit`: the update's row loop
commits its mutations (lines 94-105).  `updNotifyWake`: with at least one row
updated, `csvCondVar.notify_all` wakes the parked selector, which re-runs the
entire select (lines 115-117 and 81-83).  `updNotifyNone`: the broadcast
finds an empty waitset and is lost (condition variables have no memory).
`updNoNotify`: zero rows updated, no notification (line 115). -/
inductive CStep (sc : RaceSetup) : Cfg → Cfg → Prop
  | selScanHit (c : Cfg) (n : Nat) (evs : List OutEvent) : c.sel = SelPC.scan →
      selectRows sc.mtch c.csv sc.selCols sc.selW sc.selCond sc.selVal c.csv.rows 0 = some (n, evs) →
      0 < n → CStep sc c { c with sel := SelPC.done }
  | selScanMiss (c : Cfg) (evs : List OutEvent) : c.sel = SelPC.scan →
      selectRows sc.mtch c.csv sc.selCols sc.selW sc.selCond sc.selVal c.csv.rows 0 = some (0, evs) →
      CStep sc c { c with sel := SelPC.preWait }
  | selEnterWait (c : Cfg) : c.sel = SelPC.preWait →
      CStep sc c { c with sel := SelPC.waiting, waiters := true }
  | updCommit (c : Cfg) (rows2 : List CSVRow) (n : Nat) : c.upd = UpdPC.run →
      updateRows sc.mtch c.csv sc.updCols sc.updVals sc.updW sc.updCond sc.updVal c.csv.rows = .ok (rows2, n) →
      CStep sc c { c with csv := { c.csv with rows := rows2 }, upd := UpdPC.notify n }
  | updNotifyWake (c : Cfg) (n : Nat) : c.upd = UpdPC.notify n → 0 < n →
      c.waiters = true → c.sel = SelPC.waiting →
      CStep sc c { c with upd := UpdPC.finished, waiters := false, sel := SelPC.scan }
  | updNotifyNone (c : Cfg) (n : Nat) : c.upd = UpdPC.notify n → 0 < n →
      c.waiters = false → CStep sc c { c with upd := UpdPC.finished }
  | updNoNotify (c : Cfg) : c.upd = UpdPC.notify 0 →
      CStep sc c { c with upd := UpdPC.finished }

/-- The spec's liveness scenario: a table with one row whose status is
"pending", a blocking select for status = "done", and an update setting
status to "done" on the pending row.  The comparator is string equality,
standing for the "=" case of `SQLAirBase::matches`. -/
def raceSetup0 : RaceSetup :=
  { mtch := fun s _ v => s = v
  , selCols := ["status"], selW := 0, selCond := "=", selVal := "done"
  , updCols := ["status"], updVals := ["done"], updW := 0, updCond := "="
  , updVal := "pending" }

/-- Initial configuration of the race: both threads about to run, the table
holding the single pending row. -/
def raceInit : Cfg :=
  { csv := { columnNames := ["status"], rows := [["pending"]] }
  , sel := SelPC.scan, upd := UpdPC.run, waiters := false }

/-- The configuration reached when the update commits and notifies between
the select's zero-row scan and its entry into the condition-variable wait:
the row now satisfies the select's condition, the updater has finished, and
the selector is parked with no notification left to wake it. -/
def raceStuck : Cfg :=
  { csv := { columnNames := ["status"], rows := [["done"]] }
  , sel := SelPC.waiting, upd := UpdPC.finished, waiters := true }

theorem getColumnIndexAux_self (names : List String) (hnd : names.Nodup) :
    ∀ (i : Nat) (hi : i < names.length), getColumnIndexAux names names[i] = some i := by
  induction names with
  | nil => intro i hi; simp at hi
  | cons c cs ih =>
    rw [List.nodup_cons] at hnd
    intro i hi
    cases i with
    | zero => simp [getColumnIndexAux]
    | succ j =>
      have hj : j < cs.length := by simpa using hi
      have hgt : (c :: cs)[j + 1] = cs[j] := List.getElem_cons_succ ..
      rw [hgt]
      have hne : c ≠ cs[j] := fun hc => hnd.1 (hc ▸ List.getElem_mem hj)
      simp only [getColumnIndexAux, if_neg hne]
      rw [ih hnd.2 j hj]
      rfl

theorem getColumnIndexAux_lookup (names : List String) (n : String) :
    ∀ i, getColumnIndexAux names n = some i → names[i]? = some n := by
  induction names with
  | nil => intro i h; simp [getColumnIndexAux] at h
  | cons c cs ih =>
    intro i h
    simp only [getColumnIndexAux] at h
    by_cases hc : c = n
    · rw [if_pos hc] at h
      cases h
      simp [hc]
    · rw [if_neg hc] at h
      obtain ⟨j, hj, rfl⟩ := Option.map_eq_some'.mp h
      simpa using ih j hj

theorem getColumnIndexAux_isSome_of_mem (names : List String) (c : String)
    (h : c ∈ names) : (getColumnIndexAux names c).isSome = true := by
  induction names with
  | nil => simp at h
  | cons a as ih =>
    simp only [getColumnIndexAux]
    by_cases ha : a = c
    · simp [ha]
    · have : c ∈ as := by
        rcases List.mem_cons.mp h with h1 | h1
        · exact absurd h1.symm ha
        · exact h1
      rw [if_neg ha]
      simpa using ih this

theorem colVals_pointwise (csv : CSV) (row : CSVRow) (g : String → String) :
    ∀ (cols : List String),
      (∀ c ∈ cols, (csv.getColumnIndex c).bind (fun i => row[i]?) = some (g c)) →
      colVals csv row cols = some (cols.map g) := by
  intro cols
  induction cols with
  | nil => intro h; simp [colVals]
  | cons c cs ih =>
    intro h
    have hc : (csv.getColumnIndex c).bind (fun i => row[i]?) = some (g c) :=
      h c (by simp)
    have ih2 := ih (fun x hx => h x (by simp [hx]))
    simp [colVals, hc, ih2]

theorem star_vals (csv : CSV) (row : List String)
    (hnd : csv.columnNames.Nodup) (hlen : row.length = csv.columnNames.length) :
    colVals csv row csv.columnNames = some row := by
  have key : ∀ a ∈ csv.columnNames,
      (csv.getColumnIndex a).bind (fun i => row[i]?) =
        some (row.getD ((getColumnIndexAux csv.columnNames a).getD 0) "") := by
    intro a ha
    obtain ⟨i, hi, rfl⟩ := List.mem_iff_getElem.mp ha
    unfold CSV.getColumnIndex
    rw [getColumnIndexAux_self csv.columnNames hnd i hi]
    have hilt : i < row.length := by omega
    simp [List.getD, List.getElem?_eq_getElem hilt]
  rw [colVals_pointwise csv row _ csv.columnNames key]
  congr 1
  apply List.ext_getElem
  · simp [hlen]
  · intro i h1 h2
    have hi : i < csv.columnNames.length := by simpa using h1
    rw [List.getElem_map]
    rw [getColumnIndexAux_self csv.columnNames hnd i hi]
    have hilt : i < row.length := by omega
    simp [List.getD, List.getElem?_eq_getElem hilt]

theorem display_star (csv : CSV) (row : CSVRow) (k : Nat)
    (hnd : csv.columnNames.Nodup) (hlen : row.length = csv.columnNames.length) :
    display row csv.columnNames csv k =
      some ((if k = 1 then [OutEvent.header csv.columnNames] else [])
        ++ [OutEvent.vals row]) := by
  unfold display
  rw [star_vals csv row hnd hlen]

theorem selectRows_unconditional (mtch : String → String → String → Bool)
    (csv : CSV) (cond value : String) (hnd : csv.columnNames.Nodup) :
    ∀ (rows : List CSVRow) (n : Nat), 1 ≤ n →
      (∀ r ∈ rows, r.length = csv.columnNames.length) →
      selectRows mtch csv csv.columnNames (-1) cond value rows n =
        some (n + rows.length, rows.map OutEvent.vals) := by
  intro rows
  induction rows with
  | nil => intro n h1 h2; simp [selectRows]
  | cons r rs ih =>
    intro n h1 h2
    have hch : rowChosen mtch (-1) cond value r = some true := by simp [rowChosen]
    have hdisp : display r csv.columnNames csv (n + 1) = some [OutEvent.vals r] := by
      rw [display_star csv r (n + 1) hnd (h2 r (by simp))]
      have : ¬ (n + 1 = 1) := by omega
      simp [this]
    have hrest := ih (n + 1) (by omega) (fun x hx => h2 x (by simp [hx]))
    simp only [selectRows, hch, hdisp, hrest]
    simp
    omega

/-- C7: a select with mustWait false, an unconditional where clause and
column list `*` outputs every row of the table exactly once, in the table's
original row order, with the header before the first row, and reports a count
equal to the table's row count; an empty table yields a count of zero and no
error. -/
theorem selectQuery_star_all_rows (mtch : String → String → String → Bool)
    (csv : CSV) (cond value : String) (hnd : csv.columnNames.Nodup)
    (hlen : ∀ r ∈ csv.rows, r.length = csv.columnNames.length) :
    selectQuery mtch csv false ["*"] (-1) cond value =
      some (QResult.done
        ((if csv.rows = [] then []
          else OutEvent.header csv.columnNames :: csv.rows.map OutEvent.vals)
        ++ [OutEvent.rowsSelected csv.rows.length])) := by
  unfold selectQuery
  cases hrows : csv.rows with
  | nil => simp [selectRows, CSV.getColumnNames]
  | cons r rs =>
    have hr : r ∈ csv.rows := by rw [hrows]; simp
    have hch : rowChosen mtch (-1) cond value r = some true := by simp [rowChosen]
    have hdisp : display r csv.columnNames csv 1 =
        some [OutEvent.header csv.columnNames, OutEvent.vals r] := by
      rw [display_star csv r 1 hnd (hlen r hr)]
      simp
    have hrest := selectRows_unconditional mtch csv cond value hnd rs 1 (by omega)
      (fun x hx => hlen x (by rw [hrows]; simp [hx]))
    rw [show 1 + rs.length = rs.length + 1 from by omega] at hrest
    simp [selectRows, hch, hdisp, hrest, CSV.getColumnNames]

/-- Witness for C7: a concrete three-row table yields its three rows in order
and the count 3. -/
theorem selectQuery_star_all_rows_witness :
    selectQuery (fun s _ v => s = v)
      { columnNames := ["a", "b"], rows := [["1", "2"], ["3", "4"], ["5", "6"]] }
      false ["*"] (-1) "=" "x" =
      some (QResult.done [OutEvent.header ["a", "b"], OutEvent.vals ["1", "2"],
        OutEvent.vals ["3", "4"], OutEvent.vals ["5", "6"], OutEvent.rowsSelected 3]) := by
  have h := selectQuery_star_all_rows (fun s _ v => s = v)
    { columnNames := ["a", "b"], rows := [["1", "2"], ["3", "4"], ["5", "6"]] }
    "=" "x" (by decide) (by decide)
  simpa using h

theorem selectRows_no_header (mtch : String → String → String → Bool)
    (csv : CSV) (cols : List String) (wIdx : Int) (cond value : String) :
    ∀ (rows : List CSVRow) (n n2 : Nat) (evs : List OutEvent), 1 ≤ n →
      selectRows mtch csv cols wIdx cond value rows n = some (n2, evs) →
      ∃ vs : List (List String), evs = vs.map OutEvent.vals ∧ n2 = n + vs.length := by
  intro rows
  induction rows with
  | nil =>
    intro n n2 evs h1 h2
    simp [selectRows] at h2
    exact ⟨[], by simp [h2.2.symm], by simp [h2.1]⟩
  | cons r rs ih =>
    intro n n2 evs h1 h2
    simp only [selectRows] at h2
    cases hch : rowChosen mtch wIdx cond value r with
    | none => rw [hch] at h2; simp at h2
    | some b =>
      rw [hch] at h2
      cases b with
      | false => exact ih n n2 evs h1 h2
      | true =>
        cases hd : display r cols csv (n + 1) with
        | none => rw [hd] at h2; simp at h2
        | some evs0 =>
          rw [hd] at h2
          cases hrec : selectRows mtch csv cols wIdx cond value rs (n + 1) with
          | none => rw [hrec] at h2; simp at h2
          | some p =>
            obtain ⟨n3, rest⟩ := p
            rw [hrec] at h2
            simp at h2
            obtain ⟨hn, hevs⟩ := h2
            obtain ⟨vs, hvs, hlen⟩ := ih (n + 1) n3 rest (by omega) hrec
            unfold display at hd
            cases hcv : colVals csv r cols with
            | none => rw [hcv] at hd; simp at hd
            | some w =>
              rw [hcv] at hd
              have : ¬ (n + 1 = 1) := by omega
              simp [this] at hd
              exact ⟨w :: vs, by simp [hevs.symm, hd.symm, hvs], by simp [hlen]; omega⟩

theorem selectRows_from_zero (mtch : String → String → String → Bool)
    (csv : CSV) (cols : List String) (wIdx : Int) (cond value : String) :
    ∀ (rows : List CSVRow) (n : Nat) (evs : List OutEvent),
      selectRows mtch csv cols wIdx cond value rows 0 = some (n, evs) →
      (n = 0 ∧ evs = []) ∨
      (∃ (v : List String) (vs : List (List String)),
        evs = OutEvent.header cols :: OutEvent.vals v :: vs.map OutEvent.vals
        ∧ n = vs.length + 1) := by
  intro rows
  induction rows with
  | nil =>
    intro n evs h
    simp [selectRows] at h
    exact Or.inl ⟨h.1.symm, h.2⟩
  | cons r rs ih =>
    intro n evs h
    simp only [selectRows] at h
    cases hch : rowChosen mtch wIdx cond value r with
    | none => rw [hch] at h; simp at h
    | some b =>
      rw [hch] at h
      cases b with
      | false => exact ih n evs h
      | true =>
        cases hd : display r cols csv (0 + 1) with
        | none => rw [hd] at h; simp at h
        | some evs0 =>
          rw [hd] at h
          cases hrec : selectRows mtch csv cols wIdx cond value rs (0 + 1) with
          | none => rw [hrec] at h; simp at h
          | some p =>
            obtain ⟨n3, rest⟩ := p
            rw [hrec] at h
            simp at h
            obtain ⟨hn, hevs⟩ := h
            obtain ⟨vs, hvs, hlen⟩ :=
              selectRows_no_header mtch csv cols wIdx cond value rs (0 + 1) n3 rest
                (by omega) hrec
            unfold display at hd
            cases hcv : colVals csv r cols with
            | none => rw [hcv] at hd; simp at hd
            | some w =>
              rw [hcv] at hd
              simp at hd
              refine Or.inr ⟨w, vs, ?_, by omega⟩
              simp [hevs.symm, hd.symm, hvs]

/-- C9: in every select, the column-name header line is emitted exactly once,
immediately before the first matched row's values (the `display` call whose
running count is 1), and not at all when zero rows match; every later matched
row is emitted without a header. -/
theorem selectRows_header_once (mtch : String → String → String → Bool)
    (csv : CSV) (cols : List String) (wIdx : Int) (cond value : String)
    (n : Nat) (evs : List OutEvent)
    (h : selectRows mtch csv cols wIdx cond value csv.rows 0 = some (n, evs)) :
    (n = 0 → evs = []) ∧
    (0 < n → ∃ (v : List String) (vs : List (List String)),
      evs = OutEvent.header cols :: OutEvent.vals v :: vs.map OutEvent.vals
      ∧ n = vs.length + 1) := by
  rcases selectRows_from_zero mtch csv cols wIdx cond value csv.rows n evs h with
    ⟨h1, h2⟩ | ⟨v, vs, h1, h2⟩
  · exact ⟨fun _ => h2, fun hpos => absurd h1 (by omega)⟩
  · exact ⟨fun h0 => absurd h2 (by omega), fun _ => ⟨v, vs, h1, h2⟩⟩

/-- Witness for C9: a two-row table with both rows matching yields one header
followed by the two value lines. -/
theorem selectRows_header_once_witness :
    ∃ (v : List String) (vs : List (List String)),
      [OutEvent.header ["a"], OutEvent.vals ["1"], OutEvent.vals ["2"]] =
        OutEvent.header ["a"] :: OutEvent.vals v :: vs.map OutEvent.vals
      ∧ 2 = vs.length + 1 := by
  have h := selectRows_header_once (fun s _ v => s = v)
    { columnNames := ["a"], rows := [["1"], ["2"]] } ["a"] (-1) "=" "x" 2
    [OutEvent.header ["a"], OutEvent.vals ["1"], OutEvent.vals ["2"]] (by decide)
  exact h.2 (by omega)

theorem setCols_no_ub (csv : CSV) (values : List String) :
    ∀ (cs : List String) (i0 : Nat) (row : CSVRow),
      i0 + cs.length ≤ values.length →
      setCols csv values cs i0 row ≠ .error .valuesIndexUB := by
  intro cs
  induction cs with
  | nil => intro i0 row h hc; simp [setCols] at hc
  | cons c cs ih =>
    intro i0 row h hc
    simp only [setCols] at hc
    have hv : i0 < values.length := by simp at h; omega
    rw [List.getElem?_eq_getElem hv] at hc
    cases hix : csv.getColumnIndex c with
    | none => rw [hix] at hc; simp at hc
    | some idx =>
      rw [hix] at hc
      exact ih (i0 + 1) (row.set idx values[i0]) (by simp at h ⊢; omega) hc

theorem updateRows_no_ub (mtch : String → String → String → Bool) (csv : CSV)
    (colNames values : List String) (wIdx : Int) (cond value : String)
    (h : colNames.length ≤ values.length) :
    ∀ rows, updateRows mtch csv colNames values wIdx cond value rows
      ≠ .error .valuesIndexUB := by
  intro rows
  induction rows with
  | nil => intro hc; simp [updateRows] at hc
  | cons r rs ih =>
    intro hc
    simp only [updateRows] at hc
    cases hch : rowChosen mtch wIdx cond value r with
    | none => rw [hch] at hc; simp at hc
    | some b =>
      rw [hch] at hc
      cases b with
      | false =>
        cases hrec : updateRows mtch csv colNames values wIdx cond value rs with
        | error e =>
          rw [hrec] at hc
          simp at hc
          exact ih (by rw [hrec, hc])
        | ok p => rw [hrec] at hc; obtain ⟨rs2, k⟩ := p; simp at hc
      | true =>
        cases hsc : setCols csv values colNames 0 r with
        | error e =>
          rw [hsc] at hc
          simp at hc
          exact setCols_no_ub csv values colNames 0 r (by omega) (by rw [hsc, hc])
        | ok r2 =>
          rw [hsc] at hc
          cases hrec : updateRows mtch csv colNames values wIdx cond value rs with
          | error e =>
            rw [hrec] at hc
            simp at hc
            exact ih (by rw [hrec, hc])
          | ok p => rw [hrec] at hc; obtain ⟨rs2, k⟩ := p; simp at hc

theorem setCols_forced_ub (csv : CSV) (values : List String) :
    ∀ (cs : List String) (i0 : Nat) (row : CSVRow),
      i0 ≤ values.length → values.length < i0 + cs.length →
      (∀ c ∈ cs, (csv.getColumnIndex c).isSome = true) →
      setCols csv values cs i0 row = .error .valuesIndexUB := by
  intro cs
  induction cs with
  | nil => intro i0 row h1 h2 h3; simp at h2; omega
  | cons c cs ih =>
    intro i0 row h1 h2 h3
    simp only [setCols]
    by_cases hi : i0 < values.length
    · rw [List.getElem?_eq_getElem hi]
      obtain ⟨idx, hidx⟩ := Option.isSome_iff_exists.mp (h3 c (by simp))
      rw [hidx]
      exact ih (i0 + 1) (row.set idx values[i0]) (by omega)
        (by simp at h2 ⊢; omega) (fun x hx => h3 x (by simp [hx]))
    · have hnone : values[i0]? = none := List.getElem?_eq_none (by omega)
      rw [hnone]

theorem setCols_effect (csv : CSV) (values : List String) :
    ∀ (cs : List String) (i0 : Nat) (row : CSVRow),
      cs.Nodup →
      (∀ c ∈ cs, ∃ idx, csv.getColumnIndex c = some idx ∧ idx < row.length) →
      i0 + cs.length ≤ values.length →
      ∃ row2, setCols csv values cs i0 row = .ok row2
        ∧ row2.length = row.length
        ∧ (∀ j : Nat, (∀ c ∈ cs, csv.getColumnIndex c ≠ some j) →
            row2[j]? = row[j]?)
        ∧ (∀ (k : Nat) (hk : k < cs.length) (idx : Nat),
            csv.getColumnIndex cs[k] = some idx → row2[idx]? = values[i0 + k]?) := by
  intro cs
  induction cs with
  | nil =>
    intro i0 row _ _ _
    exact ⟨row, rfl, rfl, fun j _ => rfl, fun k hk => by simp at hk⟩
  | cons c cs ih =>
    intro i0 row hnd hcols hlen
    rw [List.nodup_cons] at hnd
    obtain ⟨idx0, hidx0, hidx0lt⟩ := hcols c (by simp)
    have hv : i0 < values.length := by simp at hlen; omega
    have hcols2 : ∀ x ∈ cs, ∃ idx, csv.getColumnIndex x = some idx
        ∧ idx < (row.set idx0 values[i0]).length := by
      intro x hx
      obtain ⟨idx, ha, hb⟩ := hcols x (by simp [hx])
      exact ⟨idx, ha, by simpa using hb⟩
    obtain ⟨row2, hok, hlen2, huntouched, hwritten⟩ :=
      ih (i0 + 1) (row.set idx0 values[i0]) hnd.2 hcols2 (by simp at hlen ⊢; omega)
    refine ⟨row2, ?_, ?_, ?_, ?_⟩
    · simp only [setCols, List.getElem?_eq_getElem hv, hidx0]
      exact hok
    · simpa using hlen2
    · intro j hj
      have h1 : row2[j]? = (row.set idx0 values[i0])[j]? :=
        huntouched j (fun x hx => hj x (by simp [hx]))
      have hne : idx0 ≠ j := fun he => hj c (by simp) (he ▸ hidx0)
      rw [h1, List.getElem?_set_ne hne]
    · intro k hk idx hidx
      cases k with
      | zero =>
        simp only [List.getElem_cons_zero] at hidx
        have heq : idx = idx0 := by
          rw [hidx0] at hidx
          exact (Option.some.inj hidx).symm
        subst heq
        have hunt : row2[idx]? = (row.set idx values[i0])[idx]? := by
          apply huntouched
          intro x hx hcontra
          have e1 := getColumnIndexAux_lookup csv.columnNames x idx hcontra
          have e2 := getColumnIndexAux_lookup csv.columnNames c idx hidx0
          rw [e1] at e2
          exact hnd.1 ((Option.some.inj e2) ▸ hx)
        rw [hunt, List.getElem?_set_eq_of_lt _ hidx0lt,
          Nat.add_zero, List.getElem?_eq_getElem hv]
      | succ k2 =>
        have hk2 : k2 < cs.length := by simpa using hk
        have hgt : (c :: cs)[k2 + 1] = cs[k2] := List.getElem_cons_succ ..
        rw [hgt] at hidx
        have := hwritten k2 hk2 idx hidx
        rw [this]
        congr 1
        omega

/-- C10: the per-row mutation of updateQuery indexes the set-value list at
every position below the set-column-name count with no bounds check; it never
performs that out-of-range access, for every table, exactly when the
set-value list is at least as long as the set-column-name list; and under
that precondition (with distinct set columns all present in the table and a
row respecting the table width) the mutation succeeds and writes values[i]
into the column named colNames[i] for every i. -/
theorem updateQuery_values_indexing (colNames values : List String) :
    ((∀ (mtch : String → String → String → Bool) (csv : CSV) (mustWait : Bool)
        (wIdx : Int) (cond value : String),
        updateQuery mtch csv mustWait colNames values wIdx cond value
          ≠ .error .valuesIndexUB)
      ↔ colNames.length ≤ values.length)
    ∧ (∀ (csv : CSV) (row : CSVRow),
        colNames.Nodup →
        (∀ c ∈ colNames, ∃ idx, csv.getColumnIndex c = some idx ∧ idx < row.length) →
        colNames.length ≤ values.length →
        ∃ row2, setCols csv values colNames 0 row = .ok row2
          ∧ row2.length = row.length
          ∧ ∀ (k : Nat) (hk : k < colNames.length) (idx : Nat),
              csv.getColumnIndex colNames[k] = some idx → row2[idx]? = values[k]?) := by
  constructor
  · constructor
    · intro hall
      by_contra hlt
      push_neg at hlt
      apply hall (fun _ _ _ => true)
        { columnNames := colNames, rows := [List.replicate colNames.length ""] }
        false (-1) "" ""
      have hch : rowChosen (fun _ _ _ => true) (-1) "" ""
          (List.replicate colNames.length "") = some true := by simp [rowChosen]
      have hsc : setCols { columnNames := colNames, rows := [List.replicate colNames.length ""] }
          values colNames 0 (List.replicate colNames.length "") = .error .valuesIndexUB := by
        apply setCols_forced_ub _ values colNames 0 _ (by omega) (by omega)
        intro c hc
        exact getColumnIndexAux_isSome_of_mem colNames c hc
      unfold updateQuery
      simp only [updateRows, hch, hsc]
    · intro hle mtch csv mw wIdx cond value hc
      unfold updateQuery at hc
      cases hur : updateRows mtch csv colNames values wIdx cond value csv.rows with
      | error e =>
        rw [hur] at hc
        simp at hc
        exact updateRows_no_ub mtch csv colNames values wIdx cond value hle
          csv.rows (by rw [hur, hc])
      | ok p =>
        rw [hur] at hc
        obtain ⟨rs2, k⟩ := p
        by_cases hb : mw && k == 0 <;> simp [hb] at hc
  · intro csv row hnd hcols hle
    obtain ⟨row2, h1, h2, _, h4⟩ :=
      setCols_effect csv values colNames 0 row hnd hcols (by simpa using hle)
    refine ⟨row2, h1, h2, fun k hk idx hidx => ?_⟩
    have := h4 k hk idx hidx
    simpa using this

/-- Witness for C10: with one set column and one set value, the mutation of a
one-column row succeeds and writes the value at the column's index. -/
theorem updateQuery_values_indexing_witness :
    ∃ row2, setCols { columnNames := ["a"], rows := [] } ["x"] ["a"] 0 ["old"] = .ok row2
      ∧ row2.length = (["old"] : List String).length
      ∧ ∀ (k : Nat) (hk : k < (["a"] : List String).length) (idx : Nat),
          CSV.getColumnIndex { columnNames := ["a"], rows := [] } (["a"] : List String)[k]
            = some idx → row2[idx]? = (["x"] : List String)[k]? := by
  apply (updateQuery_values_indexing ["a"] ["x"]).2
  · decide
  · intro c hc
    simp at hc
    subst hc
    exact ⟨0, rfl, by decide⟩
  · decide

/-- C6: for every table and every argument list, insert and delete fail
immediately with the Unsupported error carrying the fixed message, never
return a mutated table or any output, and never wait (no `blocked`
outcome). -/
theorem insertDelete_unsupported :
    ∀ (csv : CSV) (mustWait : Bool) (colNames values : List String)
      (whereColIdx : Int) (cond value : String),
      insertQuery csv mustWait colNames values = .error (.exp "insert is not yet implemented.")
      ∧ deleteQuery csv mustWait whereColIdx cond value = .error (.exp "delete is not yet implemented.")
      ∧ (∀ o, insertQuery csv mustWait colNames values ≠ .ok o)
      ∧ (∀ o, deleteQuery csv mustWait whereColIdx cond value ≠ .ok o) := by
  intro csv mustWait colNames values whereColIdx cond value
  refine ⟨rfl, rfl, ?_, ?_⟩ <;> intro o h <;> simp [insertQuery, deleteQuery] at h

/-- C5: for every request whose query processing raises an error, the worker
catches it and responds with the body being the single line
"Error: message", a Content-Length equal to that body's exact byte length,
and still releases its admission slot (the thread count is decremented). -/
theorem clientThread_error_response (process : String → Except String String)
    (urlDecode : String → String) (request : String) (numThreads : Int)
    (msg : String) (hreq : findAtStart "/sql-air?query=" request = true)
    (herr : process (urlDecode (request.drop 15)) = .error msg) :
    clientThread process urlDecode request numThreads =
      (some (HTTPRespHeader ++ toString ("Error: " ++ msg ++ "\n").utf8ByteSize
        ++ "\r\n\r\n" ++ ("Error: " ++ msg ++ "\n")), numThreads - 1) := by
  unfold clientThread
  simp [hreq, herr]

/-- Witness for C5: a concrete erroring request produces the error body with
Content-Length 12 and decrements the thread count from 5 to 4. -/
theorem clientThread_error_response_witness :
    clientThread (fun _ => Except.error "boom") id "/sql-air?query=x" 5 =
      (some (HTTPRespHeader ++ "12" ++ "\r\n\r\n" ++ "Error: boom\n"), 4) := by
  have h := clientThread_error_response (fun _ => Except.error "boom") id
    "/sql-air?query=x" 5 "boom" (by decide) rfl
  exact h

/-- C1 (counterexample): at a state whose most-recently-used identifier is
"old.csv", a failing load of the uncached identifier "new.csv" propagates the
error and leaves the mapping without the entry, but the most-recently-used
identifier does not retain its previous value: it is already "new.csv". -/
theorem loadAndGet_error_recent_changed :
    (loadAndGet failLoader { inMemoryCSV := [], recentCSV := "old.csv" } "new.csv").1.recentCSV = "new.csv"
    ∧ ("new.csv" : String) ≠ "old.csv"
    ∧ (loadAndGet failLoader { inMemoryCSV := [], recentCSV := "old.csv" } "new.csv").1.inMemoryCSV = []
    ∧ (loadAndGet failLoader { inMemoryCSV := [], recentCSV := "old.csv" } "new.csv").2
        = .error (.loadErr "new.csv") := by
  decide

/-- C1 (amended): when the resolved identifier is not cached and its load
fails, the error propagates, the identifier-to-table mapping gains no entry,
and the most-recently-used identifier is set to the resolved identifier — the
assignment happens before the load is attempted, so it is not rolled back. -/
theorem loadAndGet_error_state (load : String → Except AirExn CSV)
    (s : AirState) (fileOrURL : String) (e : AirExn)
    (hc : s.inMemoryCSV.lookup (if fileOrURL = "" then s.recentCSV else fileOrURL) = none)
    (hl : load (if fileOrURL = "" then s.recentCSV else fileOrURL) = .error e) :
    loadAndGet load s fileOrURL =
      ({ inMemoryCSV := s.inMemoryCSV
       , recentCSV := if fileOrURL = "" then s.recentCSV else fileOrURL }, .error e) := by
  unfold loadAndGet
  simp [hc, hl]

/-- Witness for C1 (amended): the concrete failing load of "new.csv". -/
theorem loadAndGet_error_state_witness :
    loadAndGet failLoader { inMemoryCSV := [], recentCSV := "old.csv" } "new.csv" =
      ({ inMemoryCSV := [], recentCSV := "new.csv" }, .error (.loadErr "new.csv")) := by
  have h := loadAndGet_error_state failLoader
    { inMemoryCSV := [], recentCSV := "old.csv" } "new.csv" (.loadErr "new.csv")
    (by decide) (by decide)
  exact h

/-- C2 (counterexample): with nothing ever loaded, a lookup with an empty
identifier fails, but with the load error of the empty source name (the code
attempts to load the file named by the empty string), not with a distinct
NotFound error. -/
theorem loadAndGet_empty_unset_not_notFound :
    loadAndGet failLoader { inMemoryCSV := [], recentCSV := "" } "" =
      ({ inMemoryCSV := [], recentCSV := "" }, .error (.loadErr ""))
    ∧ AirExn.loadErr "" ≠ AirExn.notFound := by
  decide

/-- C2 (amended): with an empty identifier and no table ever loaded (the
most-recently-used identifier is the empty string and the mapping has no
entry for it), the call returns no table and fails with whatever error the
load of the empty identifier raises; the state is unchanged. -/
theorem loadAndGet_empty_unset_fails (load : String → Except AirExn CSV)
    (s : AirState) (e : AirExn) (h0 : s.recentCSV = "")
    (hc : s.inMemoryCSV.lookup "" = none) (hl : load "" = .error e) :
    loadAndGet load s "" = (s, .error e) := by
  obtain ⟨m, r⟩ := s
  simp only at h0
  subst h0
  unfold loadAndGet
  simp only at hc
  simp [hc, hl]

/-- Witness for C2 (amended): the concrete never-loaded state. -/
theorem loadAndGet_empty_unset_fails_witness :
    loadAndGet failLoader { inMemoryCSV := [], recentCSV := "" } "" =
      ({ inMemoryCSV := [], recentCSV := "" }, .error (.loadErr "")) := by
  have h := loadAndGet_empty_unset_fails failLoader
    { inMemoryCSV := [], recentCSV := "" } (.loadErr "") rfl (by decide) rfl
  exact h

/-- C8 (counterexample): after a failed load of "table.csv" from a fresh
state, the most-recently-used identifier is "table.csv" — neither empty nor
remote — yet the save operation fails, because the identifier has no entry in
the mapping and the checked map access throws; so failing exactly when the
identifier is empty or remote is refuted. -/
theorem saveQuery_uncached_fails :
    (loadAndGet failLoader { inMemoryCSV := [], recentCSV := "" } "table.csv").1.recentCSV = "table.csv"
    ∧ ("table.csv" : String).isEmpty = false
    ∧ findAtStart "http://" "table.csv" = false
    ∧ saveQuery (loadAndGet failLoader { inMemoryCSV := [], recentCSV := "" } "table.csv").1
        = .error .atRange := by
  decide

/-- C8 (amended): the save operation succeeds exactly when the
most-recently-used identifier is non-empty, not remote, and present in the
mapping; in that case it writes the most-recently-used table to the file
named by the identifier and reports success; it throws the unsupported-save
error when the identifier is empty or remote, and the checked map access
throws when the identifier is absent from the mapping. -/
theorem saveQuery_characterization (s : AirState) :
    ((∃ w, saveQuery s = .ok w) ↔
      (s.recentCSV.isEmpty = false ∧ findAtStart "http://" s.recentCSV = false
        ∧ (s.inMemoryCSV.lookup s.recentCSV).isSome = true))
    ∧ (s.recentCSV.isEmpty = false → findAtStart "http://" s.recentCSV = false →
        ∀ csv, s.inMemoryCSV.lookup s.recentCSV = some csv →
          saveQuery s = .ok ((s.recentCSV, csv), OutEvent.saved s.recentCSV))
    ∧ (s.recentCSV.isEmpty = true ∨ findAtStart "http://" s.recentCSV = true →
        saveQuery s = .error (.exp "Saving CSV to an URL using POST is not implemented"))
    ∧ (s.recentCSV.isEmpty = false → findAtStart "http://" s.recentCSV = false →
        s.inMemoryCSV.lookup s.recentCSV = none → saveQuery s = .error .atRange) := by
  unfold saveQuery
  by_cases h1 : s.recentCSV.isEmpty
  · simp [h1]
  · by_cases h2 : findAtStart "http://" s.recentCSV
    · simp [h1, h2]
    · simp only [h1, h2, Bool.or_false, Bool.false_or, if_neg]
      cases hlk : s.inMemoryCSV.lookup s.recentCSV <;>
        simp_all [Option.isSome]

/-- Witness for C8 (amended): a state with the table cached under a local
identifier saves it and reports success. -/
theorem saveQuery_characterization_witness :
    saveQuery { inMemoryCSV := [("t.csv", { columnNames := ["a"], rows := [["1"]] })]
              , recentCSV := "t.csv" } =
      .ok (("t.csv", { columnNames := ["a"], rows := [["1"]] }), OutEvent.saved "t.csv") := by
  exact (saveQuery_characterization
    { inMemoryCSV := [("t.csv", { columnNames := ["a"], rows := [["1"]] })]
    , recentCSV := "t.csv" }).2.1 (by decide) (by decide)
    { columnNames := ["a"], rows := [["1"]] } (by decide)

/-- C4: in every reachable state of the admission-control protocol with a
non-negative configured maximum, the number of simultaneously active workers
never exceeds the maximum: the accept loop admits only below the bound and
counts the spawn before looping, and each completing worker releases exactly
one slot. -/
theorem runServer_admission_bound (maxThr : Int) (s : SrvState)
    (hpos : 0 ≤ maxThr)
    (hreach : Relation.ReflTransGen (SrvStep maxThr) srvInit s) :
    (s.active : Int) ≤ maxThr := by
  have inv : ∀ t : SrvState, Relation.ReflTransGen (SrvStep maxThr) srvInit t →
      (t.active : Int) = t.numThreads + (if t.pendingInc then 1 else 0)
      ∧ (t.active : Int) ≤ maxThr := by
    intro t ht
    induction ht with
    | refl => exact ⟨by simp [srvInit], by simpa [srvInit] using hpos⟩
    | tail hab hbc ih =>
      obtain ⟨ih1, ih2⟩ := ih
      cases hbc with
      | spawnWorker hp hlt =>
        simp [hp] at ih1
        constructor <;> simp <;> omega
      | countSpawn hp =>
        simp [hp] at ih1
        constructor <;> simp <;> omega
      | finish hact =>
        rename_i s1
        cases hpi : s1.pendingInc <;> simp [hpi] at ih1 <;>
          constructor <;> simp [hpi] <;> omega
  exact (inv s hreach).2

/-- Witness for C4: with a maximum of 2 workers, the state reached by one
admission followed by its count increment has one active worker, within the
bound. -/
theorem runServer_admission_bound_witness :
    (({ numThreads := 1, active := 1, pendingInc := false } : SrvState).active : Int) ≤ 2 := by
  have h1 : SrvStep 2 srvInit { numThreads := 0, active := 1, pendingInc := true } :=
    SrvStep.spawnWorker srvInit rfl (by decide)
  have h2 : SrvStep 2 { numThreads := 0, active := 1, pendingInc := true }
      { numThreads := 1, active := 1, pendingInc := false } :=
    SrvStep.countSpawn _ rfl
  exact runServer_admission_bound 2 _ (by decide)
    ((Relation.ReflTransGen.single h1).tail h2)

/-- C3: the wakeup CAN be missed.  In the interleaving model of the source's
wait/notify protocol there is a reachable configuration — the select's
zero-row scan completes, then the update commits the satisfying change and
broadcasts while the waitset is still empty, then the select enters the
wait — in which the row now matches the select's condition and the updater
has finished, yet the selector is parked forever: no step at all is enabled,
so the blocked select never returns.  This refutes the claimed liveness: the
select's condition check (its row scan) is not performed under the mutex
paired with the condition variable, so the update's notification can fall
between the check and the wait. -/
theorem select_missed_wakeup :
    Relation.ReflTransGen (CStep raceSetup0) raceInit raceStuck
    ∧ (∃ evs, selectRows raceSetup0.mtch raceStuck.csv raceSetup0.selCols
        raceSetup0.selW raceSetup0.selCond raceSetup0.selVal raceStuck.csv.rows 0
        = some (1, evs))
    ∧ raceStuck.upd = UpdPC.finished
    ∧ raceStuck.sel = SelPC.waiting
    ∧ (∀ c, ¬ CStep raceSetup0 raceStuck c) := by
  refine ⟨?_, ⟨[OutEvent.header ["status"], OutEvent.vals ["done"]], by decide⟩, rfl, rfl, ?_⟩
  · have h1 : CStep raceSetup0 raceInit
        { csv := { columnNames := ["status"], rows := [["pending"]] }
        , sel := SelPC.preWait, upd := UpdPC.run, waiters := false } :=
      CStep.selScanMiss raceInit [] rfl (by decide)
    have h2 : CStep raceSetup0
        { csv := { columnNames := ["status"], rows := [["pending"]] }
        , sel := SelPC.preWait, upd := UpdPC.run, waiters := false }
        { csv := { columnNames := ["status"], rows := [["done"]] }
        , sel := SelPC.preWait, upd := UpdPC.notify 1, waiters := false } :=
      CStep.updCommit _ [["done"]] 1 rfl (by decide)
    have h3 : CStep raceSetup0
        { csv := { columnNames := ["status"], rows := [["done"]] }
        , sel := SelPC.preWait, upd := UpdPC.notify 1, waiters := false }
        { csv := { columnNames := ["status"], rows := [["done"]] }
        , sel := SelPC.preWait, upd := UpdPC.finished, waiters := false } :=
      CStep.updNotifyNone _ 1 rfl (by decide) rfl
    have h4 : CStep raceSetup0
        { csv := { columnNames := ["status"], rows := [["done"]] }
        , sel := SelPC.preWait, upd := UpdPC.finished, waiters := false }
        raceStuck :=
      CStep.selEnterWait _ rfl
    exact (((Relation.ReflTransGen.single h1).tail h2).tail h3).tail h4
  · intro c h
    cases h <;> simp_all [raceStuck]

end SQLAir
